import Mathlib

/-!
Verification development for the pb_json repository: a shallow embedding of
the PB (Protocol Buffers) wire decoder, the JCE (Tars-family) wire decoder,
and the shared JSON result accumulator, together with theorems checking the
natural-language specification against the code.

Modelling conventions:
- Go byte slices are `List Nat` (each element a byte value 0..255).
- Go `map[string]interface{}` results (`pb.JSONResult`) are ordered-insertion
  association structures (`JObj` below); Go maps are unordered, the model
  fixes insertion order as a determinization.
- Go float values are kept as their IEEE-754 bit patterns (`vF32`/`vF64`):
  the code only constructs floats from bits and never computes with them.
- Go strings produced by converting raw payload bytes (`string(data)`) are
  kept as byte lists (`vGoStr`); computed ASCII strings (hex encodings,
  decimal renderings) are Lean strings (`vStr`).
- Machine integer casts (`int32(v)`, `int64(v)`) are explicit mod-2^w
  reinterpretations on `Nat`/`Int`.
- Recursive decoding loops carry an explicit fuel argument; public entry
  points supply fuel strictly larger than any possible call depth, so the
  artificial out-of-fuel outcome is never reached on the inputs considered.
-/

/-! ## Shared JSON result model (source: pb.JSONResult, part_002) -/

mutual
/-- Value stored in a decode result: leaf scalars, nested accumulators
(`vObj`), or sequences (`vArr`). -/
inductive JValue where
  | vInt (n : Int)
  | vUInt (n : Nat)
  | vBool (b : Bool)
  | vNull
  | vStr (s : String)
  | vGoStr (bs : List Nat)
  | vF32 (bits : Nat)
  | vF64 (bits : Nat)
  | vObj (fields : JObj)
  | vArr (elems : JArr)
  deriving Repr

/-- Ordered association structure of string keys to values, modelling the Go
`map[string]interface{}` accumulator with insertion order fixed. -/
inductive JObj where
  | nil
  | cons (key : String) (val : JValue) (rest : JObj)
  deriving Repr

/-- Sequence of values, modelling the Go `[]interface{}`. -/
inductive JArr where
  | nil
  | cons (v : JValue) (rest : JArr)
  deriving Repr
end

/-- Conversion helper for writing concrete `JArr` terms. -/
def jarr : List JValue → JArr
  | [] => .nil
  | v :: rest => .cons v (jarr rest)

/-- Conversion helper for writing concrete `JObj` terms. -/
def jobj : List (String × JValue) → JObj
  | [] => .nil
  | (k, v) :: rest => .cons k v (jobj rest)

/-- Lookup of a key in the accumulator, modelling Go map indexing `j[key]`. -/
def jLookup : JObj → String → Option JValue
  | .nil, _ => none
  | .cons k v rest, key => if k = key then some v else jLookup rest key

/-- List of keys of an accumulator, in order. -/
def jKeys : JObj → List String
  | .nil => []
  | .cons k _ rest => k :: jKeys rest

/-- Append one value at the end of a sequence (Go `append(nvalue, value)`). -/
def JArr.snoc : JArr → JValue → JArr
  | .nil, v => .cons v .nil
  | .cons x rest, v => .cons x (JArr.snoc rest v)

/-- Result accumulator type, as in the source (`pb.JSONResult`). -/
abbrev JSONResult := JObj

/-- Append models `pb.JSONResult.Append` (part_002 lines 830-844): if the key
is absent bind it to the value; if present and bound to a sequence extend the
sequence; otherwise rebind the key to the two-element sequence of the old and
the new value. The binding is updated in place. -/
def JSONResult.Append : JSONResult → String → JValue → JSONResult
  | .nil, key, value => .cons key value .nil
  | .cons k v rest, key, value =>
    if k = key then
      match v with
      | .vArr xs => .cons k (.vArr (JArr.snoc xs value)) rest
      | _ => .cons k (.vArr (.cons v (.cons value .nil))) rest
    else .cons k v (JSONResult.Append rest key value)

/-- AppendArrayItem models `pb.JSONResult.AppendArrayItem` (part_002 lines
847-863): if the key is absent bind it to the one-element sequence of the
value; otherwise behave exactly as Append. -/
def JSONResult.AppendArrayItem : JSONResult → String → JValue → JSONResult
  | .nil, key, value => .cons key (.vArr (.cons value .nil)) .nil
  | .cons k v rest, key, value =>
    if k = key then
      match v with
      | .vArr xs => .cons k (.vArr (JArr.snoc xs value)) rest
      | _ => .cons k (.vArr (.cons v (.cons value .nil))) rest
    else .cons k v (JSONResult.AppendArrayItem rest key value)

/-- FixTagTypeNames models `pb.JSONResult.FixTagTypeNames` (part_002 lines
866-878): for every binding, recurse when the value is a nested accumulator,
and rename the key by suffixing "s" when the value is a sequence. Elements of
sequences are not visited. The Go code iterates a map in unspecified order
with each original key visited once; the model visits bindings in order. -/
def JSONResult.FixTagTypeNames : JSONResult → JSONResult
  | .nil => .nil
  | .cons k (JValue.vObj m) rest =>
    .cons k (.vObj (JSONResult.FixTagTypeNames m)) (JSONResult.FixTagTypeNames rest)
  | .cons k (JValue.vArr xs) rest =>
    .cons (k ++ "s") (.vArr xs) (JSONResult.FixTagTypeNames rest)
  | .cons k v rest => .cons k v (JSONResult.FixTagTypeNames rest)

/-- Test whether a value is a sequence. -/
def isArr : JValue → Bool
  | .vArr _ => true
  | _ => false

/-- Test whether a string ends in the letter s. -/
def endsInS (s : String) : Bool := s.data.getLast? == some 's'

mutual
/-- Helper predicate: a value contains no sequence along accumulator chains. -/
def noSeqV : JValue → Bool
  | .vObj m => noSeqO m
  | .vArr _ => false
  | _ => true

/-- Helper predicate: an accumulator has no sequence-valued binding at any
directly nested accumulator depth. -/
def noSeqO : JObj → Bool
  | .nil => true
  | .cons _ v rest => noSeqV v && noSeqO rest
end

mutual
/-- Helper predicate on values: every sequence-valued binding of every
accumulator reachable through directly nested accumulators (not through
sequences) has a key ending in s. -/
def arrKeysOkV : JValue → Bool
  | .vObj m => arrKeysOkO m
  | _ => true

/-- Helper predicate on accumulators, see `arrKeysOkV`. -/
def arrKeysOkO : JObj → Bool
  | .nil => true
  | .cons k (.vArr _) rest => endsInS k && arrKeysOkO rest
  | .cons _ v rest => arrKeysOkV v && arrKeysOkO rest
end

/-! ## Shared byte-level helpers -/

/-- Zero-padded four-digit decimal rendering of a tag, modelling the Go
format directive `%04d` as used in every key format of the source. -/
def fmtTag4 (tag : Nat) : String :=
  let s := Nat.repr tag
  String.mk (List.replicate (4 - s.length) '0') ++ s

/-- Hex digit character (lowercase). -/
def hexDigit (n : Nat) : Char := if n < 10 then Char.ofNat (48 + n) else Char.ofNat (87 + n)

/-- Lowercase hex encoding of a byte list, modelling Go
`hex.EncodeToString`. -/
def hexEncode : List Nat → String
  | [] => ""
  | b :: rest => String.mk [hexDigit (b / 16 % 16), hexDigit (b % 16)] ++ hexEncode rest

/-- Signed 32-bit reinterpretation of an unsigned value (Go `int32(v)`). -/
def toInt32 (n : Nat) : Int :=
  if n % 4294967296 < 2147483648 then ((n % 4294967296 : Nat) : Int)
  else ((n % 4294967296 : Nat) : Int) - 4294967296

/-- Signed 64-bit reinterpretation of an unsigned value (Go `int64(v)`). -/
def toInt64 (n : Nat) : Int :=
  if n % 18446744073709551616 < 9223372036854775808 then ((n % 18446744073709551616 : Nat) : Int)
  else ((n % 18446744073709551616 : Nat) : Int) - 18446744073709551616

/-- Signed 16-bit reinterpretation of an unsigned value. The source never
computes this; it is used to state what the spec asks for. -/
def toInt16 (n : Nat) : Int :=
  if n % 65536 < 32768 then ((n % 65536 : Nat) : Int)
  else ((n % 65536 : Nat) : Int) - 65536

/-- ZigZag decoding, modelling `protowire.DecodeZigZag` on values below
2^64: even values map to v / 2, odd values to -(v / 2) - 1. -/
def decodeZigZag (n : Nat) : Int :=
  if n % 2 = 0 then ((n / 2 : Nat) : Int) else -((n / 2 : Nat) : Int) - 1

namespace Pb

/-! ## PB wire and logical types (source: part_002 lines 8-54)

The Go `Type` is an integer; the model uses `Nat` constants with the source
values. `String`, `Bool` and `Float` carry a T suffix because the plain
names would shadow the Lean core types. -/

def Varint : Nat := 0
def Fixed32 : Nat := 5
def Fixed64 : Nat := 1
def Bytes : Nat := 2
def StartGroup : Nat := 3
def EndGroup : Nat := 4
def Unkown : Nat := 9
def StringT : Nat := 10
def Message : Nat := 11
def Int32 : Nat := 12
def Int64 : Nat := 13
def UInt : Nat := 14
def SInt : Nat := 15
def BoolT : Nat := 16
def Double : Nat := 17
def FloatT : Nat := 18
def SFixed32 : Nat := 19
def SFixed64 : Nat := 20
def Packed : Nat := 21
def MaxTagValue : Nat := 9999

/-- Association list lookup for the type-name tables. -/
def lookupNat : List (Nat × String) → Nat → Option String
  | [], _ => none
  | (k, v) :: rest, key => if k = key then some v else lookupNat rest key

/-- Association list lookup for the name-to-type tables. -/
def lookupStr : List (String × Nat) → String → Option Nat
  | [], _ => none
  | (k, v) :: rest, key => if k = key then some v else lookupStr rest key

/-- typeNamesFormat models the Go table of the same name (part_002 lines
59-86). Every Go entry is the format string "%04d_" followed by the name
recorded here; the model stores the name part and `typeKey` below rebuilds
the formatted key. -/
def typeNamesFormat : List (Nat × String) := [
  (Varint, "varint"),
  (Fixed32, "fixed32"),
  (Fixed64, "fixed64"),
  (Bytes, "bytes"),
  (StringT, "string"),
  (Message, "message"),
  (Int32, "int32"),
  (Int64, "int64"),
  (UInt, "uint"),
  (SInt, "sint"),
  (BoolT, "bool"),
  (Double, "double"),
  (FloatT, "float"),
  (SFixed32, "sfixed32"),
  (SFixed64, "sfixed64"),
  (Packed + Fixed32, "packed.fixed32"),
  (Packed + Fixed64, "packed.fixed64"),
  (Packed + Int32, "packed.int32"),
  (Packed + Int64, "packed.int64"),
  (Packed + UInt, "packed.uint"),
  (Packed + SInt, "packed.sint"),
  (Packed + BoolT, "packed.bool"),
  (Packed + Double, "packed.double"),
  (Packed + FloatT, "packed.float"),
  (Packed + SFixed32, "packed.sfixed32"),
  (Packed + SFixed64, "packed.sfixed64")]

/-- namesToType models the Go table of the same name (part_002 lines
89-130). -/
def namesToType : List (String × Nat) := [
  ("varint", Varint),
  ("fixed32", Fixed32),
  ("fixed64", Fixed64),
  ("bytes", Bytes),
  ("string", StringT),
  ("message", Message),
  ("int32", Int32),
  ("int64", Int64),
  ("uint", UInt),
  ("sint", SInt),
  ("bool", BoolT),
  ("double", Double),
  ("float", FloatT),
  ("sfixed32", SFixed32),
  ("sfixed64", SFixed64),
  ("packed.fixed32s", Packed + Fixed32),
  ("packed.fixed64s", Packed + Fixed64),
  ("packed.int32s", Packed + Int32),
  ("packed.int64s", Packed + Int64),
  ("packed.uints", Packed + UInt),
  ("packed.sints", Packed + SInt),
  ("packed.bools", Packed + BoolT),
  ("packed.doubles", Packed + Double),
  ("packed.floats", Packed + FloatT),
  ("packed.sfixed32s", Packed + SFixed32),
  ("packed.sfixed64s", Packed + SFixed64),
  ("strings", StringT),
  ("messages", Message),
  ("varints", Varint),
  ("fixed32s", Fixed32),
  ("fixed64s", Fixed64),
  ("int32s", Int32),
  ("int64s", Int64),
  ("uints", UInt),
  ("sints", SInt),
  ("bools", BoolT),
  ("doubles", Double),
  ("floats", FloatT),
  ("sfixed32s", SFixed32),
  ("sfixed64s", SFixed64)]

/-- Formatted key for a logical type and tag: `fmt.Sprintf(typeNamesFormat[typ], tag)`.
The code only uses the key in branches where the type is present in the
table; for an absent type the name part defaults to the empty string. -/
def typeKey (typ tag : Nat) : String :=
  fmtTag4 tag ++ "_" ++ (lookupNat typeNamesFormat typ).getD ""

/-! ## Options (source: part_002 lines 197-248) -/

/-- Value held in a caller-supplied options mapping: a type-name string, a
nested mapping, or any other JSON value (number, bool, null, array), which
the code treats as neither. -/
inductive OptVal where
  | str (s : String)
  | map (fields : List (String × OptVal))
  | other
  deriving Repr

/-- Caller-supplied options mapping contents. -/
abbrev OptMap := List (String × OptVal)

/-- Options models the Go `pb.Options` map type; `none` models the nil map. -/
abbrev Options := Option OptMap

/-- Lookup in an options mapping, modelling Go map indexing. -/
def lookupOpt : OptMap → String → Option OptVal
  | [], _ => none
  | (k, v) :: rest, key => if k = key then some v else lookupOpt rest key

/-- GetOptionsKey models `pb.GetOptionsKey` (part_002 lines 226-228). -/
def GetOptionsKey (tag : String) : String := tag ++ "options"

/-- GetTypeByTag models `pb.Options.GetTypeByTag` (part_002 lines 231-248):
a sub-mapping under the tag means Message; a recognized type-name string
maps through namesToType; anything else is Unkown. -/
def Options.GetTypeByTag (o : Options) (tag : String) : Nat :=
  match o with
  | none => Unkown
  | some m =>
    match lookupOpt m tag with
    | some (.map _) => Message
    | some (.str name) => (lookupStr namesToType name).getD Unkown
    | _ => Unkown

/-- GetOptionsByTag models `pb.Options.GetOptionsByTag` (part_002 lines
211-223): it consults only the key `tag ++ "options"` and returns the
sub-mapping stored there, or nil. The Go code performs two type assertions
(raw map and Options) on the same entry; the model has one map form. -/
def Options.GetOptionsByTag (o : Options) (tag : String) : Options :=
  match o with
  | none => none
  | some m =>
    match lookupOpt m (GetOptionsKey tag) with
    | some (.map mm) => some mm
    | _ => none

end Pb

namespace Pb

/-! ## protowire primitives

The decoder consumes the wire through google.golang.org/protobuf/encoding/protowire.
That library is an external dependency, modelled here from its documented
wire-format contract: varints are base-128 little-endian with at most ten
bytes and a tenth byte of at most 1; fixed widths are little-endian; a bytes
field is a varint length followed by that many bytes; a tag varint encodes
the field number in the bits above the three wire-type bits, and a field
number of zero is invalid. Go signals failure through a negative consume
length; the model returns `none`. -/

/-- Auxiliary varint parser; the first argument is the index of the byte
about to be read (0-based, capped at 9). Returns the parsed value and the
number of bytes consumed. -/
def consumeVarintAux : Nat → List Nat → Option (Nat × Nat)
  | _, [] => none
  | i, b :: rest =>
    if i = 9 then
      if b ≤ 1 then some (b, 1) else none
    else if b < 128 then some (b, 1)
    else
      match consumeVarintAux (i + 1) rest with
      | none => none
      | some (v, n) => some (b % 128 + 128 * v, n + 1)

/-- Varint parser, modelling `protowire.ConsumeVarint`. -/
def consumeVarint (raw : List Nat) : Option (Nat × Nat) := consumeVarintAux 0 raw

/-- Length-delimited field parser, modelling `protowire.ConsumeBytes`:
returns the payload and the total number of bytes consumed. -/
def consumeBytes (raw : List Nat) : Option (List Nat × Nat) :=
  match consumeVarint raw with
  | none => none
  | some (m, n) =>
    if (raw.drop n).length < m then none
    else some ((raw.drop n).take m, n + m)

/-- Little-endian 4-byte parser, modelling `protowire.ConsumeFixed32`. -/
def consumeFixed32 : List Nat → Option (Nat × Nat)
  | b0 :: b1 :: b2 :: b3 :: _ =>
    some (b0 + 256 * b1 + 65536 * b2 + 16777216 * b3, 4)
  | _ => none

/-- Little-endian 8-byte parser, modelling `protowire.ConsumeFixed64`. -/
def consumeFixed64 : List Nat → Option (Nat × Nat)
  | b0 :: b1 :: b2 :: b3 :: b4 :: b5 :: b6 :: b7 :: _ =>
    some (b0 + 256 * b1 + 65536 * b2 + 16777216 * b3 + 4294967296 * b4
      + 1099511627776 * b5 + 281474976710656 * b6 + 72057594037927936 * b7, 8)
  | _ => none

/-- Error outcomes of the PB decoder. `parseErr` stands for the
protowire.ParseError values, `tagTooBig` for errPBTagTooBig, `unknownType`
for errUnknownType. `outOfFuel` is the artificial recursion budget of the
model and is unreachable from the public entry points below. -/
inductive PbErr where
  | parseErr
  | tagTooBig
  | unknownType
  | outOfFuel
  deriving Repr, DecidableEq

/-- readTagType models `pb.readTagType` (part_002 lines 292-306): consume a
tag varint, fail on malformed varints and on field number zero (both
protowire parse errors) and on tags above MaxTagValue; return the field
number, the wire type and the remaining bytes. -/
def readTagType (raw : List Nat) : Except PbErr ((Nat × Nat) × List Nat) :=
  match consumeVarint raw with
  | none => .error .parseErr
  | some (v, n) =>
    if v >>> 3 = 0 then .error .parseErr
    else if MaxTagValue < v >>> 3 then .error .tagTooBig
    else .ok ((v >>> 3, v % 8), raw.drop n)

/-- isString models `pb.isString` (part_002 lines 310-324), including its
early returns: the first byte equal to HT, LF or CR makes the whole payload
count as a string immediately; the first byte equal to DEL or below 31
otherwise makes it count as non-string; a payload without such bytes is a
string. -/
def isString : List Nat → Bool
  | [] => true
  | c :: rest =>
    if c = 9 ∨ c = 10 ∨ c = 13 then true
    else if c = 127 then false
    else if c ≤ 31 then false
    else isString rest

/-- readVarint models `pb.readVarint` (part_002 lines 401-432). -/
def readVarint (raw : List Nat) (tag : Nat) (opts : Options) (result : JSONResult) :
    Except PbErr (List Nat × JSONResult) :=
  match consumeVarint raw with
  | none => .error .parseErr
  | some (value, n) =>
    let raw1 := raw.drop n
    let typ := Options.GetTypeByTag opts (Nat.repr tag)
    let typeName := typeKey typ tag
    if typ = Int32 then .ok (raw1, JSONResult.Append result typeName (.vInt (toInt32 value)))
    else if typ = Int64 then .ok (raw1, JSONResult.Append result typeName (.vInt (toInt64 value)))
    else if typ = UInt then .ok (raw1, JSONResult.Append result typeName (.vUInt value))
    else if typ = SInt then .ok (raw1, JSONResult.Append result typeName (.vInt (decodeZigZag value)))
    else if typ = BoolT then
      if value = 0 then .ok (raw1, JSONResult.Append result typeName (.vBool false))
      else .ok (raw1, JSONResult.Append result typeName (.vBool true))
    else .ok (raw1, JSONResult.Append result (typeKey Varint tag) (.vUInt value))

/-- readFixed32 models `pb.readFixed32` (part_002 lines 773-796). -/
def readFixed32 (raw : List Nat) (tag : Nat) (opts : Options) (result : JSONResult) :
    Except PbErr (List Nat × JSONResult) :=
  match consumeFixed32 raw with
  | none => .error .parseErr
  | some (value, n) =>
    let raw1 := raw.drop n
    let typ := Options.GetTypeByTag opts (Nat.repr tag)
    let typeName := typeKey typ tag
    if typ = FloatT then .ok (raw1, JSONResult.Append result typeName (.vF32 value))
    else if typ = SFixed32 then .ok (raw1, JSONResult.Append result typeName (.vInt (toInt32 value)))
    else if typ = Fixed32 then .ok (raw1, JSONResult.Append result typeName (.vUInt value))
    else .ok (raw1, JSONResult.Append result (typeKey FloatT tag) (.vF32 value))

/-- readFixed64 models `pb.readFixed64` (part_002 lines 799-824); the 64-bit
integer interpretations are rendered as decimal strings. -/
def readFixed64 (raw : List Nat) (tag : Nat) (opts : Options) (result : JSONResult) :
    Except PbErr (List Nat × JSONResult) :=
  match consumeFixed64 raw with
  | none => .error .parseErr
  | some (value, n) =>
    let raw1 := raw.drop n
    let typ := Options.GetTypeByTag opts (Nat.repr tag)
    let typeName := typeKey typ tag
    if typ = Double then .ok (raw1, JSONResult.Append result typeName (.vF64 value))
    else if typ = SFixed64 then
      .ok (raw1, JSONResult.Append result typeName (.vStr (Int.repr (toInt64 value))))
    else if typ = Fixed64 then
      .ok (raw1, JSONResult.Append result typeName (.vStr (Nat.repr value)))
    else .ok (raw1, JSONResult.Append result (typeKey Double tag) (.vF64 value))

/-! ## Packed repeated readers (source: part_002 lines 531-766)

Each reader loops over the payload consuming one element at a time. The
first argument is fuel; every reader is called with fuel exceeding the
payload length, which is enough because every iteration consumes at least
one byte. -/

/-- readInt32Packed models `pb.readInt32Packed` (lines 748-766): varint
elements, signed 32-bit, appended through AppendArrayItem. -/
def readInt32Packed : Nat → List Nat → Nat → JSONResult → Except PbErr JSONResult
  | _, [], _, result => .ok result
  | 0, _ :: _, _, _ => .error .outOfFuel
  | fuel + 1, data, tag, result =>
    match consumeVarint data with
    | none => .error .parseErr
    | some (value, n) =>
      readInt32Packed fuel (data.drop n) tag
        (JSONResult.AppendArrayItem result (typeKey (Packed + Int32) tag) (.vInt (toInt32 value)))

/-- readInt64Packed models `pb.readInt64Packed` (lines 727-745): varint
elements, signed 64-bit, appended through AppendArrayItem. -/
def readInt64Packed : Nat → List Nat → Nat → JSONResult → Except PbErr JSONResult
  | _, [], _, result => .ok result
  | 0, _ :: _, _, _ => .error .outOfFuel
  | fuel + 1, data, tag, result =>
    match consumeVarint data with
    | none => .error .parseErr
    | some (value, n) =>
      readInt64Packed fuel (data.drop n) tag
        (JSONResult.AppendArrayItem result (typeKey (Packed + Int64) tag) (.vInt (toInt64 value)))

/-- readUIntPacked models `pb.readUIntPacked` (lines 706-724): varint
elements, unsigned, appended through AppendArrayItem. -/
def readUIntPacked : Nat → List Nat → Nat → JSONResult → Except PbErr JSONResult
  | _, [], _, result => .ok result
  | 0, _ :: _, _, _ => .error .outOfFuel
  | fuel + 1, data, tag, result =>
    match consumeVarint data with
    | none => .error .parseErr
    | some (value, n) =>
      readUIntPacked fuel (data.drop n) tag
        (JSONResult.AppendArrayItem result (typeKey (Packed + UInt) tag) (.vUInt value))

/-- readSIntPacked models `pb.readSIntPacked` (lines 685-703): varint
elements, ZigZag decoded, appended through AppendArrayItem. -/
def readSIntPacked : Nat → List Nat → Nat → JSONResult → Except PbErr JSONResult
  | _, [], _, result => .ok result
  | 0, _ :: _, _, _ => .error .outOfFuel
  | fuel + 1, data, tag, result =>
    match consumeVarint data with
    | none => .error .parseErr
    | some (value, n) =>
      readSIntPacked fuel (data.drop n) tag
        (JSONResult.AppendArrayItem result (typeKey (Packed + SInt) tag) (.vInt (decodeZigZag value)))

/-- readBoolPacked models `pb.readBoolPacked` (lines 659-682): varint
elements, zero mapped to false, appended through AppendArrayItem. -/
def readBoolPacked : Nat → List Nat → Nat → JSONResult → Except PbErr JSONResult
  | _, [], _, result => .ok result
  | 0, _ :: _, _, _ => .error .outOfFuel
  | fuel + 1, data, tag, result =>
    match consumeVarint data with
    | none => .error .parseErr
    | some (value, n) =>
      if value = 0 then
        readBoolPacked fuel (data.drop n) tag
          (JSONResult.AppendArrayItem result (typeKey (Packed + BoolT) tag) (.vBool false))
      else
        readBoolPacked fuel (data.drop n) tag
          (JSONResult.AppendArrayItem result (typeKey (Packed + BoolT) tag) (.vBool true))

/-- readFixed32Packed models `pb.readFixed32Packed` (lines 638-656):
4-byte little-endian elements, unsigned, appended through Append. -/
def readFixed32Packed : Nat → List Nat → Nat → JSONResult → Except PbErr JSONResult
  | _, [], _, result => .ok result
  | 0, _ :: _, _, _ => .error .outOfFuel
  | fuel + 1, data, tag, result =>
    match consumeFixed32 data with
    | none => .error .parseErr
    | some (value, n) =>
      readFixed32Packed fuel (data.drop n) tag
        (JSONResult.Append result (typeKey (Packed + Fixed32) tag) (.vUInt value))

/-- readFloatPacked models `pb.readFloatPacked` (lines 617-635): 4-byte
little-endian elements, IEEE-754 single, appended through Append. -/
def readFloatPacked : Nat → List Nat → Nat → JSONResult → Except PbErr JSONResult
  | _, [], _, result => .ok result
  | 0, _ :: _, _, _ => .error .outOfFuel
  | fuel + 1, data, tag, result =>
    match consumeFixed32 data with
    | none => .error .parseErr
    | some (value, n) =>
      readFloatPacked fuel (data.drop n) tag
        (JSONResult.Append result (typeKey (Packed + FloatT) tag) (.vF32 value))

/-- readSFixed32Packed models `pb.readSFixed32Packed` (lines 596-614):
4-byte little-endian elements, signed 32-bit, appended through Append. -/
def readSFixed32Packed : Nat → List Nat → Nat → JSONResult → Except PbErr JSONResult
  | _, [], _, result => .ok result
  | 0, _ :: _, _, _ => .error .outOfFuel
  | fuel + 1, data, tag, result =>
    match consumeFixed32 data with
    | none => .error .parseErr
    | some (value, n) =>
      readSFixed32Packed fuel (data.drop n) tag
        (JSONResult.Append result (typeKey (Packed + SFixed32) tag) (.vInt (toInt32 value)))

/-- readFixed64Packed models `pb.readFixed64Packed` (lines 574-593): 8-byte
little-endian elements, unsigned, rendered as decimal strings, appended
through Append. -/
def readFixed64Packed : Nat → List Nat → Nat → JSONResult → Except PbErr JSONResult
  | _, [], _, result => .ok result
  | 0, _ :: _, _, _ => .error .outOfFuel
  | fuel + 1, data, tag, result =>
    match consumeFixed64 data with
    | none => .error .parseErr
    | some (value, n) =>
      readFixed64Packed fuel (data.drop n) tag
        (JSONResult.Append result (typeKey (Packed + Fixed64) tag) (.vStr (Nat.repr value)))

/-- readDoublePacked models `pb.readDoublePacked` (lines 553-571): 8-byte
little-endian elements, IEEE-754 double, appended through Append. -/
def readDoublePacked : Nat → List Nat → Nat → JSONResult → Except PbErr JSONResult
  | _, [], _, result => .ok result
  | 0, _ :: _, _, _ => .error .outOfFuel
  | fuel + 1, data, tag, result =>
    match consumeFixed64 data with
    | none => .error .parseErr
    | some (value, n) =>
      readDoublePacked fuel (data.drop n) tag
        (JSONResult.Append result (typeKey (Packed + Double) tag) (.vF64 value))

/-- readSFixed64Packed models `pb.readSFixed64Packed` (lines 531-550):
8-byte little-endian elements, signed 64-bit, rendered as decimal strings,
appended through Append. -/
def readSFixed64Packed : Nat → List Nat → Nat → JSONResult → Except PbErr JSONResult
  | _, [], _, result => .ok result
  | 0, _ :: _, _, _ => .error .outOfFuel
  | fuel + 1, data, tag, result =>
    match consumeFixed64 data with
    | none => .error .parseErr
    | some (value, n) =>
      readSFixed64Packed fuel (data.drop n) tag
        (JSONResult.Append result (typeKey (Packed + SFixed64) tag) (.vStr (Int.repr (toInt64 value))))

/-- readPacked models `pb.readPacked` (part_002 lines 492-528): dispatch on
the packed logical type; an unrecognized type is errUnknownType. The fuel
handed to each reader exceeds the payload length, which bounds the number of
loop iterations. -/
def readPacked (data : List Nat) (tag typ : Nat) (result : JSONResult) :
    Except PbErr JSONResult :=
  if typ = Packed + Int32 then readInt32Packed (data.length + 1) data tag result
  else if typ = Packed + Int64 then readInt64Packed (data.length + 1) data tag result
  else if typ = Packed + UInt then readUIntPacked (data.length + 1) data tag result
  else if typ = Packed + SInt then readSIntPacked (data.length + 1) data tag result
  else if typ = Packed + BoolT then readBoolPacked (data.length + 1) data tag result
  else if typ = Packed + Fixed32 then readFixed32Packed (data.length + 1) data tag result
  else if typ = Packed + FloatT then readFloatPacked (data.length + 1) data tag result
  else if typ = Packed + SFixed32 then readSFixed32Packed (data.length + 1) data tag result
  else if typ = Packed + Fixed64 then readFixed64Packed (data.length + 1) data tag result
  else if typ = Packed + Double then readDoublePacked (data.length + 1) data tag result
  else if typ = Packed + SFixed64 then readSFixed64Packed (data.length + 1) data tag result
  else .error .unknownType

mutual
/-- decodeF models `pb.decode` (part_002 lines 359-394) with explicit fuel:
while bytes remain, read one tag header and dispatch on the wire type;
wire types 3 and 4 fall to the default errUnknownType branch. -/
def decodeF : Nat → List Nat → Options → JSONResult → Except PbErr JSONResult
  | 0, _, _, _ => .error .outOfFuel
  | fuel + 1, raw, opts, result =>
    if raw.isEmpty then .ok result
    else
      match readTagType raw with
      | .error e => .error e
      | .ok ((tag, typ), raw1) =>
        if typ = Varint then
          match readVarint raw1 tag opts result with
          | .error e => .error e
          | .ok (raw2, result2) => decodeF fuel raw2 opts result2
        else if typ = Bytes then
          match consumeBytes raw1 with
          | none => .error .parseErr
          | some (data, n) =>
            match readBytesF fuel data tag opts result with
            | .error e => .error e
            | .ok result2 => decodeF fuel (raw1.drop n) opts result2
        else if typ = Fixed32 then
          match readFixed32 raw1 tag opts result with
          | .error e => .error e
          | .ok (raw2, result2) => decodeF fuel raw2 opts result2
        else if typ = Fixed64 then
          match readFixed64 raw1 tag opts result with
          | .error e => .error e
          | .ok (raw2, result2) => decodeF fuel raw2 opts result2
        else .error .unknownType

/-- readBytesF models `pb.readBytes` (part_002 lines 439-485) with explicit
fuel: honor an explicit Bytes, String, Message or packed hint; otherwise
probe a recursive decode with the current options, and on failure classify
through isString. -/
def readBytesF : Nat → List Nat → Nat → Options → JSONResult → Except PbErr JSONResult
  | 0, _, _, _, _ => .error .outOfFuel
  | fuel + 1, data, tag, opts, result =>
    let sTag := Nat.repr tag
    let typ := Options.GetTypeByTag opts sTag
    let typeName := typeKey typ tag
    if typ = Bytes then .ok (JSONResult.Append result typeName (.vStr (hexEncode data)))
    else if typ = StringT then .ok (JSONResult.Append result typeName (.vGoStr data))
    else if typ = Message then
      match decodeF fuel data (Options.GetOptionsByTag opts sTag) JObj.nil with
      | .error e => .error e
      | .ok res => .ok (JSONResult.Append result typeName (.vObj res))
    else if Packed ≤ typ then readPacked data tag typ result
    else
      match decodeF fuel data opts JObj.nil with
      | .ok res => .ok (JSONResult.Append result (typeKey Message tag) (.vObj res))
      | .error _ =>
        if isString data = false then
          .ok (JSONResult.Append result (typeKey Bytes tag) (.vStr (hexEncode data)))
        else
          .ok (JSONResult.Append result (typeKey StringT tag) (.vGoStr data))
end

/-- decode models `pb.decode` at the call sites of the public entry points.
The fuel raw.length + 1 is enough: along any chain of loop iterations and
nested calls, every two fuel decrements consume at least two input bytes,
and the loop exits without a decrement on empty input. -/
def decode (raw : List Nat) (opts : Options) : Except PbErr JSONResult :=
  decodeF (raw.length + 1) raw opts JObj.nil

/-- DecodeInterface models `pb.DecodeInterface` (part_002 lines 329-336):
decode, then run the fix-up pass. JSON serialization is outside the model. -/
def DecodeInterface (raw : List Nat) (opts : Options) : Except PbErr JSONResult :=
  match decode raw opts with
  | .error e => .error e
  | .ok res => .ok (JSONResult.FixTagTypeNames res)

end Pb

namespace Jce

/-! ## JCE decoder (source: part_000)

JCE carries explicit types on the wire. The type code constants carry a t
prefix because several source names (Int, List, Float, Char) would shadow
Lean core types. -/

def tChar : Nat := 0
def tShort : Nat := 1
def tInt : Nat := 2
def tInt64 : Nat := 3
def tFloat : Nat := 4
def tDouble : Nat := 5
def tString1 : Nat := 6
def tString4 : Nat := 7
def tMap : Nat := 8
def tList : Nat := 9
def tStructBegin : Nat := 10
def tStructEnd : Nat := 11
def tZero : Nat := 12
def tSimpleList : Nat := 13
def tEmptyMap : Nat := 17
def tEmptyList : Nat := 18
def tEmptySimpleList : Nat := 19

/-- jceTypeNamesFormat models the Go table of the same name (part_000 lines
81-98); as for PB, each Go entry is "%04d_" followed by the stored name. -/
def jceTypeNamesFormat : List (Nat × String) := [
  (tZero, "zero"),
  (tChar, "char"),
  (tShort, "short"),
  (tInt, "int"),
  (tInt64, "int64"),
  (tFloat, "float"),
  (tDouble, "double"),
  (tString1, "string"),
  (tString4, "string"),
  (tMap, "map"),
  (tList, "list"),
  (tSimpleList, "simplelist"),
  (tStructBegin, "struct"),
  (tEmptyMap, "emptymap"),
  (tEmptyList, "emptylist"),
  (tEmptySimpleList, "emptysimplelist")]

/-- Formatted key for a JCE type and tag. -/
def jceKey (typ tag : Nat) : String :=
  fmtTag4 tag ++ "_" ++ (Pb.lookupNat jceTypeNamesFormat typ).getD ""

/-- Error outcomes of the JCE decoder. `invalidData` models errInvalidData,
`unknownType` models errUnknownType. `panicOOB` models a Go runtime panic
from an out-of-range slice expression: it is not an error value in Go, the
process crashes (or, when the slice has spare capacity, bytes beyond the
logical end are silently read). `outOfFuel` is the artificial recursion
budget of the model. -/
inductive JceErr where
  | invalidData
  | unknownType
  | panicOOB
  | outOfFuel
  deriving Repr, DecidableEq

/-- jceReadTagType models `jce.jceReadTagType` (part_000 lines 126-144):
the first byte carries the tag in the high nibble and the type in the low
nibble; a high nibble of 15 means the next byte is the full 8-bit tag. -/
def jceReadTagType (raw : List Nat) : Except JceErr ((Nat × Nat) × List Nat) :=
  match raw with
  | [] => .error .invalidData
  | b :: rest =>
    let typ := b % 16
    let tag := b / 16 % 16
    if tag < 15 then .ok ((tag, typ), rest)
    else
      match rest with
      | [] => .error .invalidData
      | b2 :: rest2 => .ok ((b2, typ), rest2)

/-- readZero models `jce.readZero` (part_000 lines 147-150). -/
def readZero (tag : Nat) (result : JSONResult) : JSONResult :=
  JSONResult.Append result (jceKey tZero tag) (.vInt 0)

/-- readChar models `jce.readChar` (part_000 lines 153-160): one byte,
emitted as the unsigned value `int(raw[0])`. -/
def readChar (raw : List Nat) (tag : Nat) (result : JSONResult) :
    Except JceErr (List Nat × JSONResult) :=
  match raw with
  | [] => .error .invalidData
  | b :: rest => .ok (rest, JSONResult.Append result (jceKey tChar tag) (.vInt b))

/-- readShort models `jce.readShort` (part_000 lines 163-170): two
big-endian bytes, emitted as `int(binary.BigEndian.Uint16(raw))`, the
unsigned 16-bit value. -/
def readShort (raw : List Nat) (tag : Nat) (result : JSONResult) :
    Except JceErr (List Nat × JSONResult) :=
  match raw with
  | b0 :: b1 :: rest =>
    .ok (rest, JSONResult.Append result (jceKey tShort tag) (.vInt (256 * b0 + b1)))
  | _ => .error .invalidData

/-- readInt models `jce.readInt` (part_000 lines 173-180): four big-endian
bytes, emitted as `int(binary.BigEndian.Uint32(raw))`, the unsigned 32-bit
value. -/
def readInt (raw : List Nat) (tag : Nat) (result : JSONResult) :
    Except JceErr (List Nat × JSONResult) :=
  match raw with
  | b0 :: b1 :: b2 :: b3 :: rest =>
    .ok (rest, JSONResult.Append result (jceKey tInt tag)
      (.vInt (16777216 * b0 + 65536 * b1 + 256 * b2 + b3)))
  | _ => .error .invalidData

/-- readInt64 models `jce.readInt64` (part_000 lines 183-190): eight
big-endian bytes, emitted as `int64(binary.BigEndian.Uint64(raw))`, the
signed 64-bit reinterpretation. -/
def readInt64 (raw : List Nat) (tag : Nat) (result : JSONResult) :
    Except JceErr (List Nat × JSONResult) :=
  match raw with
  | b0 :: b1 :: b2 :: b3 :: b4 :: b5 :: b6 :: b7 :: rest =>
    .ok (rest, JSONResult.Append result (jceKey tInt64 tag)
      (.vInt (toInt64 (72057594037927936 * b0 + 281474976710656 * b1 + 1099511627776 * b2
        + 4294967296 * b3 + 16777216 * b4 + 65536 * b5 + 256 * b6 + b7))))
  | _ => .error .invalidData

/-- readFloat models `jce.readFloat` (part_000 lines 193-200): four
big-endian bytes as IEEE-754 single bits. -/
def readFloat (raw : List Nat) (tag : Nat) (result : JSONResult) :
    Except JceErr (List Nat × JSONResult) :=
  match raw with
  | b0 :: b1 :: b2 :: b3 :: rest =>
    .ok (rest, JSONResult.Append result (jceKey tFloat tag)
      (.vF32 (16777216 * b0 + 65536 * b1 + 256 * b2 + b3)))
  | _ => .error .invalidData

/-- readDouble models `jce.readDouble` (part_000 lines 203-210): eight
big-endian bytes as IEEE-754 double bits. -/
def readDouble (raw : List Nat) (tag : Nat) (result : JSONResult) :
    Except JceErr (List Nat × JSONResult) :=
  match raw with
  | b0 :: b1 :: b2 :: b3 :: b4 :: b5 :: b6 :: b7 :: rest =>
    .ok (rest, JSONResult.Append result (jceKey tDouble tag)
      (.vF64 (72057594037927936 * b0 + 281474976710656 * b1 + 1099511627776 * b2
        + 4294967296 * b3 + 16777216 * b4 + 65536 * b5 + 256 * b6 + b7)))
  | _ => .error .invalidData

/-- readString1 models `jce.readString1` (part_000 lines 213-224): one
length byte then that many payload bytes. -/
def readString1 (raw : List Nat) (tag : Nat) (result : JSONResult) :
    Except JceErr (List Nat × JSONResult) :=
  match raw with
  | [] => .error .invalidData
  | b :: rest =>
    if rest.length < b then .error .invalidData
    else .ok (rest.drop b, JSONResult.Append result (jceKey tString1 tag) (.vGoStr (rest.take b)))

/-- readString4 models `jce.readString4` (part_000 lines 227-238): four
big-endian length bytes then that many payload bytes. -/
def readString4 (raw : List Nat) (tag : Nat) (result : JSONResult) :
    Except JceErr (List Nat × JSONResult) :=
  match raw with
  | b0 :: b1 :: b2 :: b3 :: rest =>
    let length := 16777216 * b0 + 65536 * b1 + 256 * b2 + b3
    if rest.length < length then .error .invalidData
    else .ok (rest.drop length,
      JSONResult.Append result (jceKey tString4 tag) (.vGoStr (rest.take length)))
  | _ => .error .invalidData

/-- readLength models `jce.readLength` (part_000 lines 253-290): a tag/type
header whose type must be Zero, Char, Short or Int, followed by the integer
payload; any other type is errUnknownType. A failing header read is
reported as errInvalidData. -/
def readLength (raw : List Nat) : Except JceErr (Nat × List Nat) :=
  match jceReadTagType raw with
  | .error _ => .error .invalidData
  | .ok ((_, typ), raw1) =>
    if typ = tZero then .ok (0, raw1)
    else if typ = tChar then
      match raw1 with
      | [] => .error .invalidData
      | b :: rest => .ok (b, rest)
    else if typ = tShort then
      match raw1 with
      | b0 :: b1 :: rest => .ok (256 * b0 + b1, rest)
      | _ => .error .invalidData
    else if typ = tInt then
      match raw1 with
      | b0 :: b1 :: b2 :: b3 :: rest => .ok (16777216 * b0 + 65536 * b1 + 256 * b2 + b3, rest)
      | _ => .error .invalidData
    else .error .unknownType

/-- readSimpleList models `jce.readSimpleList` (part_000 lines 411-435): an
inner type header (discarded), a length element, then length raw bytes each
emitted as an unsigned integer. The Go code slices `raw[:length]` without
checking `length <= len(raw)`; when the length exceeds the remaining bytes
this is a runtime panic (slice bounds out of range), modelled as the
distinguished `panicOOB` outcome. -/
def readSimpleList (raw : List Nat) (tag : Nat) (result : JSONResult) :
    Except JceErr (List Nat × JSONResult) :=
  match jceReadTagType raw with
  | .error e => .error e
  | .ok (_, raw1) =>
    match readLength raw1 with
    | .error e => .error e
    | .ok (length, raw2) =>
      if length = 0 then
        .ok (raw2, JSONResult.Append result (jceKey tEmptySimpleList tag) .vNull)
      else if raw2.length < length then .error .panicOOB
      else .ok (raw2.drop length,
        JSONResult.Append result (jceKey tSimpleList tag)
          (.vArr (jarr ((raw2.take length).map fun b => .vInt b))))

mutual
/-- jceDecodeF models `jce.jceDecode` (part_000 lines 111-123) with explicit
fuel: consume elements until the input is exhausted or an element reports
the end of the enclosing struct; return the remaining bytes. -/
def jceDecodeF : Nat → List Nat → JSONResult → Except JceErr (List Nat × JSONResult)
  | 0, _, _ => .error .outOfFuel
  | fuel + 1, raw, result =>
    if raw.isEmpty then .ok (raw, result)
    else
      match readOneValueF fuel raw result with
      | .error e => .error e
      | .ok (endFlag, rest, result2) =>
        if endFlag then .ok (rest, result2)
        else jceDecodeF fuel rest result2
termination_by structural fuel _ _ => fuel

/-- readOneValueF models `jce.readOneValue` (part_000 lines 366-408) with
explicit fuel: read one tag/type header and dispatch on the type; the Bool
reports a StructEnd. -/
def readOneValueF : Nat → List Nat → JSONResult → Except JceErr (Bool × List Nat × JSONResult)
  | 0, _, _ => .error .outOfFuel
  | fuel + 1, raw, result =>
    match jceReadTagType raw with
    | .error e => .error e
    | .ok ((tag, typ), raw1) =>
      if typ = tChar then
        match readChar raw1 tag result with
        | .error e => .error e
        | .ok (raw2, result2) => .ok (false, raw2, result2)
      else if typ = tShort then
        match readShort raw1 tag result with
        | .error e => .error e
        | .ok (raw2, result2) => .ok (false, raw2, result2)
      else if typ = tInt then
        match readInt raw1 tag result with
        | .error e => .error e
        | .ok (raw2, result2) => .ok (false, raw2, result2)
      else if typ = tInt64 then
        match readInt64 raw1 tag result with
        | .error e => .error e
        | .ok (raw2, result2) => .ok (false, raw2, result2)
      else if typ = tFloat then
        match readFloat raw1 tag result with
        | .error e => .error e
        | .ok (raw2, result2) => .ok (false, raw2, result2)
      else if typ = tDouble then
        match readDouble raw1 tag result with
        | .error e => .error e
        | .ok (raw2, result2) => .ok (false, raw2, result2)
      else if typ = tString1 then
        match readString1 raw1 tag result with
        | .error e => .error e
        | .ok (raw2, result2) => .ok (false, raw2, result2)
      else if typ = tString4 then
        match readString4 raw1 tag result with
        | .error e => .error e
        | .ok (raw2, result2) => .ok (false, raw2, result2)
      else if typ = tMap then
        match readMapF fuel raw1 tag result with
        | .error e => .error e
        | .ok (raw2, result2) => .ok (false, raw2, result2)
      else if typ = tList then
        match readListF fuel raw1 tag result with
        | .error e => .error e
        | .ok (raw2, result2) => .ok (false, raw2, result2)
      else if typ = tStructBegin then
        match readStructF fuel raw1 tag result with
        | .error e => .error e
        | .ok (raw2, result2) => .ok (false, raw2, result2)
      else if typ = tStructEnd then .ok (true, raw1, result)
      else if typ = tZero then .ok (false, raw1, readZero tag result)
      else if typ = tSimpleList then
        match readSimpleList raw1 tag result with
        | .error e => .error e
        | .ok (raw2, result2) => .ok (false, raw2, result2)
      else .error .unknownType
termination_by structural fuel _ _ => fuel

/-- readStructF models `jce.readStruct` (part_000 lines 241-250): decode
nested elements into a fresh accumulator until StructEnd, then append it. -/
def readStructF : Nat → List Nat → Nat → JSONResult → Except JceErr (List Nat × JSONResult)
  | 0, _, _, _ => .error .outOfFuel
  | fuel + 1, raw, tag, result =>
    match jceDecodeF fuel raw JObj.nil with
    | .error e => .error e
    | .ok (raw1, newResult) =>
      .ok (raw1, JSONResult.Append result (jceKey tStructBegin tag) (.vObj newResult))
termination_by structural fuel _ _ _ => fuel

/-- readMapF models `jce.readMap` (part_000 lines 293-321): a length
element; zero length appends the null sentinel under the emptymap key;
otherwise each entry is a fresh accumulator holding one key element and one
value element, appended as an array item. -/
def readMapF : Nat → List Nat → Nat → JSONResult → Except JceErr (List Nat × JSONResult)
  | 0, _, _, _ => .error .outOfFuel
  | fuel + 1, raw, tag, result =>
    match readLength raw with
    | .error e => .error e
    | .ok (length, raw1) =>
      if length = 0 then .ok (raw1, JSONResult.Append result (jceKey tEmptyMap tag) .vNull)
      else readMapLoopF fuel length raw1 (jceKey tMap tag) result
termination_by structural fuel _ _ _ => fuel

/-- Entry loop of readMapF, one recursive step per entry. -/
def readMapLoopF : Nat → Nat → List Nat → String → JSONResult → Except JceErr (List Nat × JSONResult)
  | _, 0, raw, _, result => .ok (raw, result)
  | 0, _ + 1, _, _, _ => .error .outOfFuel
  | fuel + 1, count + 1, raw, key, result =>
    match readMapKeyF fuel raw JObj.nil with
    | .error e => .error e
    | .ok (raw1, item1) =>
      match readOneValueF fuel raw1 item1 with
      | .error e => .error e
      | .ok (_, raw2, item2) =>
        readMapLoopF fuel count raw2 key (JSONResult.AppendArrayItem result key (.vObj item2))
termination_by structural fuel _ _ _ _ => fuel

/-- readMapKeyF models `jce.readMapKey` (part_000 lines 324-357): a
restricted dispatch accepting scalars, strings and StructBegin; StructEnd
returns the bytes unchanged; other types are errUnknownType. -/
def readMapKeyF : Nat → List Nat → JSONResult → Except JceErr (List Nat × JSONResult)
  | 0, _, _ => .error .outOfFuel
  | fuel + 1, raw, result =>
    match jceReadTagType raw with
    | .error e => .error e
    | .ok ((tag, typ), raw1) =>
      if typ = tChar then readChar raw1 tag result
      else if typ = tShort then readShort raw1 tag result
      else if typ = tInt then readInt raw1 tag result
      else if typ = tInt64 then readInt64 raw1 tag result
      else if typ = tFloat then readFloat raw1 tag result
      else if typ = tDouble then readDouble raw1 tag result
      else if typ = tString1 then readString1 raw1 tag result
      else if typ = tString4 then readString4 raw1 tag result
      else if typ = tStructBegin then readStructF fuel raw1 tag result
      else if typ = tStructEnd then .ok (raw1, result)
      else .error .unknownType
termination_by structural fuel _ _ => fuel

/-- readListF models `jce.readList` (part_000 lines 438-458): a length
element; zero length appends the null sentinel under the emptylist key;
otherwise each element is decoded into a fresh accumulator and appended as
an array item. -/
def readListF : Nat → List Nat → Nat → JSONResult → Except JceErr (List Nat × JSONResult)
  | 0, _, _, _ => .error .outOfFuel
  | fuel + 1, raw, tag, result =>
    match readLength raw with
    | .error e => .error e
    | .ok (length, raw1) =>
      if length = 0 then .ok (raw1, JSONResult.Append result (jceKey tEmptyList tag) .vNull)
      else readListLoopF fuel length raw1 (jceKey tList tag) result
termination_by structural fuel _ _ _ => fuel

/-- Element loop of readListF, one recursive step per element. -/
def readListLoopF : Nat → Nat → List Nat → String → JSONResult → Except JceErr (List Nat × JSONResult)
  | _, 0, raw, _, result => .ok (raw, result)
  | 0, _ + 1, _, _, _ => .error .outOfFuel
  | fuel + 1, count + 1, raw, key, result =>
    match readOneValueF fuel raw JObj.nil with
    | .error e => .error e
    | .ok (_, raw1, item) =>
      readListLoopF fuel count raw1 key (JSONResult.AppendArrayItem result key (.vObj item))
termination_by structural fuel _ _ _ _ => fuel
end

/-- jceDecode models `jce.jceDecode` as called from the entry point; the
fuel is generous (each fuel unit along a call chain is matched by at most a
small constant number of decrements per consumed byte). -/
def jceDecode (raw : List Nat) (result : JSONResult) : Except JceErr (List Nat × JSONResult) :=
  jceDecodeF (4 * raw.length + 4) raw result

/-- Do models `jce.jceImpl.Do` (part_000 lines 22-37): run the top-level
decode and fail with errInvalidData when unconsumed bytes remain. JSON
serialization is outside the model. -/
def Do (raw : List Nat) : Except JceErr JSONResult :=
  match jceDecode raw JObj.nil with
  | .error e => .error e
  | .ok (rest, result) =>
    if rest.isEmpty then .ok result else .error .invalidData

end Jce

/-! ## Helper lemmas -/

/-- Appending the letter s to a string yields a string ending in s. -/
theorem endsInS_append_s (k : String) : endsInS (k ++ "s") = true := by
  have h : "s".data = ['s'] := rfl
  simp [endsInS, String.data_append, h, List.getLast?_append_cons]

/-- Values below 2^31 are fixed by the signed 32-bit reinterpretation. -/
theorem toInt32_small {n : Nat} (h : n < 2147483648) : toInt32 n = (n : Int) := by
  have h2 : n % 4294967296 = n := Nat.mod_eq_of_lt (by omega)
  simp [toInt32, h2, h]

/-- FixTagTypeNames is the identity on accumulators with no sequence-valued
binding at any directly nested accumulator depth. -/
theorem fix_id_of_noSeq (m : JObj) (h : noSeqO m = true) :
    JSONResult.FixTagTypeNames m = m := by
  induction m using JSONResult.FixTagTypeNames.induct with
  | case1 => rfl
  | case2 k mm rest ih1 ih2 =>
    simp only [noSeqO, noSeqV, Bool.and_eq_true] at h
    simp [JSONResult.FixTagTypeNames, ih1 h.1, ih2 h.2]
  | case3 k xs rest ih =>
    simp [noSeqO, noSeqV] at h
  | case4 k v rest hne1 hne2 ih =>
    simp only [noSeqO, Bool.and_eq_true] at h
    cases v <;> simp_all [JSONResult.FixTagTypeNames, noSeqV]

/-- Classification condition of the specification for bytes-field
auto-detection: a byte at most 31 other than HT, LF, CR, or a byte equal to
DEL. Presence of such a byte is supposed to force the Bytes label. -/
def specDisallowedCtrl (c : Nat) : Bool :=
  (decide (c ≤ 31) && !(c == 9 || c == 10 || c == 13)) || c == 127

/-! ## Claim theorems -/

/-- C1: the claim states that in auto-detection a payload on which the
nested decode fails is labeled Bytes if and only if it contains a
disallowed control byte. The code violates this: `isString` returns true as
soon as it sees HT, LF or CR, ignoring every later byte. On the PB input
0a 02 09 00 (tag 1, length-delimited payload 09 00, no options) the nested
decode of the payload fails, the payload contains the disallowed byte 0x00,
yet the decoder emits the String label 0001_string with the raw payload
instead of the Bytes hex label. This theorem evaluates the code at that
failing input. -/
theorem c1_autodetect_eval :
    Pb.DecodeInterface [10, 2, 9, 0] none = .ok (jobj [("0001_string", .vGoStr [9, 0])])
  ∧ [9, 0].any specDisallowedCtrl = true
  ∧ Pb.isString [9, 0] = true := by
  exact ⟨rfl, rfl, rfl⟩

/-- C2 counterexample: the claim states that every packed element is
appended through AppendArrayItem under a key that already ends in s, so a
single-element payload yields an array and the fix-up pass never renames a
packed key. On the PB input 0a 04 01 00 00 00 with the hint packed.fixed32s
for tag 1, the code appends through Append: the final mapping binds the
singular key 0001_packed.fixed32 (which does not end in s) to the scalar 1,
not to a one-element array. -/
theorem c2_counterexample :
    Pb.DecodeInterface [10, 4, 1, 0, 0, 0] (some [("1", .str "packed.fixed32s")])
      = .ok (jobj [("0001_packed.fixed32", .vUInt 1)])
  ∧ endsInS "0001_packed.fixed32" = false
  ∧ isArr (JValue.vUInt 1) = false
  ∧ Pb.lookupNat Pb.typeNamesFormat (Pb.Packed + Pb.Fixed32) = some "packed.fixed32" := by
  exact ⟨rfl, by decide, rfl, rfl⟩

/-- C2 amended: the varint-based packed types (Int32, Int64, UInt, SInt,
Bool) append through AppendArrayItem, so even a single-element payload
yields a one-element array; the fixed-width packed types (Fixed32, Float,
SFixed32, Fixed64, Double, SFixed64) append through Append, so a
single-element payload yields a scalar; the packed key formats in
typeNamesFormat are singular (they do not end in s), and the fix-up pass is
what renames a packed key when its value ended up as an array. Stated for a
one-element payload of each packed base type: a single varint byte b below
128, or four, respectively eight, little-endian payload bytes. -/
theorem c2_amended (b : Nat) (hb : b < 128) (tag : Nat) (b0 b1 b2 b3 b4 b5 b6 b7 : Nat) :
    Pb.readInt32Packed 2 [b] tag JObj.nil
      = .ok (jobj [(Pb.typeKey (Pb.Packed + Pb.Int32) tag, .vArr (jarr [.vInt b]))])
  ∧ Pb.readInt64Packed 2 [b] tag JObj.nil
      = .ok (jobj [(Pb.typeKey (Pb.Packed + Pb.Int64) tag, .vArr (jarr [.vInt b]))])
  ∧ Pb.readUIntPacked 2 [b] tag JObj.nil
      = .ok (jobj [(Pb.typeKey (Pb.Packed + Pb.UInt) tag, .vArr (jarr [.vUInt b]))])
  ∧ Pb.readSIntPacked 2 [b] tag JObj.nil
      = .ok (jobj [(Pb.typeKey (Pb.Packed + Pb.SInt) tag, .vArr (jarr [.vInt (decodeZigZag b)]))])
  ∧ Pb.readBoolPacked 2 [b] tag JObj.nil
      = .ok (jobj [(Pb.typeKey (Pb.Packed + Pb.BoolT) tag,
          .vArr (jarr [.vBool (if b = 0 then false else true)]))])
  ∧ Pb.readFixed32Packed 2 [b0, b1, b2, b3] tag JObj.nil
      = .ok (jobj [(Pb.typeKey (Pb.Packed + Pb.Fixed32) tag,
          .vUInt (b0 + 256 * b1 + 65536 * b2 + 16777216 * b3))])
  ∧ Pb.readFloatPacked 2 [b0, b1, b2, b3] tag JObj.nil
      = .ok (jobj [(Pb.typeKey (Pb.Packed + Pb.FloatT) tag,
          .vF32 (b0 + 256 * b1 + 65536 * b2 + 16777216 * b3))])
  ∧ Pb.readSFixed32Packed 2 [b0, b1, b2, b3] tag JObj.nil
      = .ok (jobj [(Pb.typeKey (Pb.Packed + Pb.SFixed32) tag,
          .vInt (toInt32 (b0 + 256 * b1 + 65536 * b2 + 16777216 * b3)))])
  ∧ Pb.readFixed64Packed 2 [b0, b1, b2, b3, b4, b5, b6, b7] tag JObj.nil
      = .ok (jobj [(Pb.typeKey (Pb.Packed + Pb.Fixed64) tag,
          .vStr (Nat.repr (b0 + 256 * b1 + 65536 * b2 + 16777216 * b3 + 4294967296 * b4
            + 1099511627776 * b5 + 281474976710656 * b6 + 72057594037927936 * b7)))])
  ∧ Pb.readDoublePacked 2 [b0, b1, b2, b3, b4, b5, b6, b7] tag JObj.nil
      = .ok (jobj [(Pb.typeKey (Pb.Packed + Pb.Double) tag,
          .vF64 (b0 + 256 * b1 + 65536 * b2 + 16777216 * b3 + 4294967296 * b4
            + 1099511627776 * b5 + 281474976710656 * b6 + 72057594037927936 * b7))])
  ∧ Pb.readSFixed64Packed 2 [b0, b1, b2, b3, b4, b5, b6, b7] tag JObj.nil
      = .ok (jobj [(Pb.typeKey (Pb.Packed + Pb.SFixed64) tag,
          .vStr (Int.repr (toInt64 (b0 + 256 * b1 + 65536 * b2 + 16777216 * b3 + 4294967296 * b4
            + 1099511627776 * b5 + 281474976710656 * b6 + 72057594037927936 * b7))))])
  ∧ endsInS (Pb.typeKey (Pb.Packed + Pb.Int32) tag) = false := by
  have hv : Pb.consumeVarint [b] = some (b, 1) := by
    simp [Pb.consumeVarint, Pb.consumeVarintAux, hb]
  have h32 : toInt32 b = (b : Int) := toInt32_small (by omega)
  have h64 : toInt64 b = (b : Int) := by
    have h2 : b % 18446744073709551616 = b := Nat.mod_eq_of_lt (by omega)
    simp [toInt64, h2]
    omega
  refine ⟨?_, ?_, ?_, ?_, ?_, ?_, ?_, ?_, ?_, ?_, ?_, ?_⟩
  · simp [Pb.readInt32Packed, hv, h32, JSONResult.AppendArrayItem, jobj, jarr]
  · simp [Pb.readInt64Packed, hv, h64, JSONResult.AppendArrayItem, jobj, jarr]
  · simp [Pb.readUIntPacked, hv, JSONResult.AppendArrayItem, jobj, jarr]
  · simp [Pb.readSIntPacked, hv, JSONResult.AppendArrayItem, jobj, jarr]
  · by_cases hb0 : b = 0
    · subst hb0
      simp [Pb.readBoolPacked, hv, JSONResult.AppendArrayItem, jobj, jarr]
    · simp [Pb.readBoolPacked, hv, hb0, JSONResult.AppendArrayItem, jobj, jarr]
  · simp [Pb.readFixed32Packed, Pb.consumeFixed32, JSONResult.Append, jobj]
  · simp [Pb.readFloatPacked, Pb.consumeFixed32, JSONResult.Append, jobj]
  · simp [Pb.readSFixed32Packed, Pb.consumeFixed32, JSONResult.Append, jobj]
  · simp [Pb.readFixed64Packed, Pb.consumeFixed64, JSONResult.Append, jobj]
  · simp [Pb.readDoublePacked, Pb.consumeFixed64, JSONResult.Append, jobj]
  · simp [Pb.readSFixed64Packed, Pb.consumeFixed64, JSONResult.Append, jobj]
  · have hlk : Pb.lookupNat Pb.typeNamesFormat (Pb.Packed + Pb.Int32) = some "packed.int32" := rfl
    have h2 : "packed.int32".data = ['p', 'a', 'c', 'k', 'e', 'd', '.', 'i', 'n', 't', '3', '2'] := rfl
    have h3 : "_".data = ['_'] := rfl
    simp [endsInS, Pb.typeKey, hlk, String.data_append, h2, h3, List.getLast?_append_cons]

/-- C2 witness: the amended packed statement applied at the single varint
byte 3 under tag 1. -/
theorem c2_amended_witness :
    Pb.readInt32Packed 2 [3] 1 JObj.nil
      = .ok (jobj [(Pb.typeKey (Pb.Packed + Pb.Int32) 1, .vArr (jarr [.vInt 3]))]) :=
  (c2_amended 3 (by decide) 1 1 0 0 0 0 0 0 0).1

/-- C3 counterexample: the claim states that running FixTagTypeNames twice
equals running it once on every accumulator state. It fails on any state
with a sequence-valued binding: the pass renames every sequence-valued key
unconditionally, so the second run appends a second s. On the state binding
0001_varint to a two-element sequence, one run yields the key 0001_varints
and two runs yield 0001_varintss. -/
theorem c3_counterexample :
    JSONResult.FixTagTypeNames (jobj [("0001_varint", .vArr (jarr [.vUInt 1, .vUInt 2]))])
      = jobj [("0001_varints", .vArr (jarr [.vUInt 1, .vUInt 2]))]
  ∧ JSONResult.FixTagTypeNames (JSONResult.FixTagTypeNames
      (jobj [("0001_varint", .vArr (jarr [.vUInt 1, .vUInt 2]))]))
      = jobj [("0001_varintss", .vArr (jarr [.vUInt 1, .vUInt 2]))]
  ∧ JSONResult.FixTagTypeNames (JSONResult.FixTagTypeNames
      (jobj [("0001_varint", .vArr (jarr [.vUInt 1, .vUInt 2]))]))
      ≠ JSONResult.FixTagTypeNames (jobj [("0001_varint", .vArr (jarr [.vUInt 1, .vUInt 2]))]) := by
  refine ⟨rfl, rfl, fun h => absurd (congrArg jKeys h) (by decide)⟩

/-- C3 amended: FixTagTypeNames is not idempotent in general (each run
appends a further s to every sequence-valued key, see the counterexample);
it is idempotent on every accumulator with no sequence-valued binding at
any directly nested accumulator depth, where it is the identity. -/
theorem c3_amended (m : JSONResult) (h : noSeqO m = true) :
    JSONResult.FixTagTypeNames (JSONResult.FixTagTypeNames m)
      = JSONResult.FixTagTypeNames m := by
  rw [fix_id_of_noSeq m h, fix_id_of_noSeq m h]

/-- C3 witness: the amended idempotence applied to a sequence-free state. -/
theorem c3_amended_witness :
    JSONResult.FixTagTypeNames (JSONResult.FixTagTypeNames
      (jobj [("0001_varint", .vUInt 1), ("0002_message", .vObj (jobj [("0001_bool", .vBool true)]))]))
      = JSONResult.FixTagTypeNames
        (jobj [("0001_varint", .vUInt 1), ("0002_message", .vObj (jobj [("0001_bool", .vBool true)]))]) :=
  c3_amended _ (by decide)

/-- C4 counterexample: the claim states that a 2-byte big-endian Short
payload is emitted as the signed 16-bit reinterpretation, with 0xFFFF
decoding to -1. The code casts the unsigned 16-bit value to int without
sign extension: payload ff ff under tag 0 decodes to 65535, not -1. -/
theorem c4_counterexample :
    Jce.readShort [255, 255] 0 JObj.nil = .ok ([], jobj [("0000_short", .vInt 65535)])
  ∧ ((65535 : Int) = -1 → False)
  ∧ toInt16 65535 = -1 := by
  refine ⟨rfl, by decide, by decide⟩

/-- C4 amended: the JCE Short element emits the unsigned 16-bit value of
its two big-endian payload bytes and the Int element emits the unsigned
32-bit value of its four big-endian payload bytes; the emitted integer is
never negative, and whenever the top bit is set it differs from the signed
16-bit reinterpretation the claim asks for (0xFFFF decodes to 65535). -/
theorem c4_amended (b0 b1 b2 b3 : Nat) (rest : List Nat) (tag : Nat) (result : JSONResult)
    (hb0 : b0 < 256) (hb1 : b1 < 256) :
    Jce.readShort (b0 :: b1 :: rest) tag result
      = .ok (rest, JSONResult.Append result (Jce.jceKey Jce.tShort tag) (.vInt (256 * b0 + b1)))
  ∧ Jce.readInt (b0 :: b1 :: b2 :: b3 :: rest) tag result
      = .ok (rest, JSONResult.Append result (Jce.jceKey Jce.tInt tag)
          (.vInt (16777216 * b0 + 65536 * b1 + 256 * b2 + b3)))
  ∧ (0 : Int) ≤ ((256 * b0 + b1 : Nat) : Int)
  ∧ (32768 ≤ 256 * b0 + b1 →
      toInt16 (256 * b0 + b1) < 0 ∧ ((256 * b0 + b1 : Nat) : Int) ≠ toInt16 (256 * b0 + b1)) := by
  refine ⟨rfl, rfl, by omega, fun h => ?_⟩
  have hlt : 256 * b0 + b1 < 65536 := by omega
  have hn : (256 * b0 + b1) % 65536 = 256 * b0 + b1 := Nat.mod_eq_of_lt hlt
  simp only [toInt16, hn]
  rw [if_neg (by omega)]
  constructor <;> omega

/-- C4 witness: the amended statement applied to the payload 80 00 under
tag 5 (top bit set, emitted as 32768). -/
theorem c4_amended_witness :
    Jce.readShort [128, 0] 5 JObj.nil = .ok ([], jobj [("0005_short", .vInt 32768)]) :=
  (c4_amended 128 0 0 1 [] 5 JObj.nil (by decide) (by decide)).1

/-- C5: the claim states that a truncated JCE input, in particular a
SimpleList whose length element declares more bytes than remain, fails with
the invalid-data error propagated as an error value with no crash. The
code is missing the bounds check every other reader performs: on input
0d 00 00 05 (tag 0 SimpleList, inner type header 00, length element of
type Char declaring 5 bytes, with no bytes remaining) the Go expression
raw[:length] is out of range and the process panics instead of returning
the jce-data-invalid error. The model renders the panic as the
distinguished panicOOB outcome, distinct from invalidData. -/
theorem c5_simplelist_eval :
    Jce.Do [13, 0, 0, 5] = .error .panicOOB
  ∧ Jce.JceErr.panicOOB ≠ Jce.JceErr.invalidData := by
  refine ⟨rfl, by decide⟩

/-- C6 counterexample: the claim states that GetOptionsByTag falls back to
the sub-mapping stored directly under the tag when no tagoptions entry is
present. The code consults only the tagoptions key: with the options
mapping binding 1 to an inline message declaration and no entry 1options,
GetOptionsByTag returns nil, not the inline sub-mapping. -/
theorem c6_counterexample :
    Pb.Options.GetOptionsByTag (some [("1", .map [("2", .str "int32")])]) "1" = none
  ∧ Pb.lookupOpt [("1", .map [("2", .str "int32")])] "1options" = none
  ∧ Pb.lookupOpt [("1", .map [("2", .str "int32")])] "1" = some (.map [("2", .str "int32")]) := by
  refine ⟨rfl, rfl, rfl⟩

/-- C6 amended: GetOptionsByTag returns the sub-mapping stored under the
key tag ++ "options" when present, and returns nil whenever that key is
absent, regardless of what is stored directly under the tag: the inline
message declaration under the tag itself is never consulted. -/
theorem c6_amended (m : Pb.OptMap) (tag : String) (mm : Pb.OptMap) :
    (Pb.lookupOpt m (tag ++ "options") = some (.map mm) →
      Pb.Options.GetOptionsByTag (some m) tag = some mm)
  ∧ (Pb.lookupOpt m (tag ++ "options") = none →
      Pb.Options.GetOptionsByTag (some m) tag = none) := by
  constructor <;> intro h <;> simp [Pb.Options.GetOptionsByTag, Pb.GetOptionsKey, h]

/-- C6 witness: the amended statement applied to a mapping holding a
1options sub-mapping. -/
theorem c6_amended_witness :
    Pb.Options.GetOptionsByTag (some [("1options", .map [("2", .str "int32")])]) "1"
      = some [("2", Pb.OptVal.str "int32")] :=
  (c6_amended [("1options", .map [("2", .str "int32")])] "1" [("2", .str "int32")]).1 rfl

/-- C7 counterexample: the claim states that after fix-up a key ends in s
if and only if its value is an array, at every nesting level including
accumulators inside arrays. Both directions fail. On the PB input
0a 01 41 12 04 08 01 08 02 12 04 08 01 08 02 with hints bytes for tag 1 and
message for tag 2: the key 0001_bytes ends in s but holds a hex string, and
inside the array produced by the repeated message the key 0001_varint holds
an array yet keeps its singular name, because the fix-up pass does not
recurse into array elements. -/
theorem c7_counterexample :
    Pb.DecodeInterface [10, 1, 65, 18, 4, 8, 1, 8, 2, 18, 4, 8, 1, 8, 2]
      (some [("1", .str "bytes"), ("2", .str "message")])
      = .ok (jobj [("0001_bytes", .vStr "41"),
          ("0002_messages", .vArr (jarr [
            .vObj (jobj [("0001_varint", .vArr (jarr [.vUInt 1, .vUInt 2]))]),
            .vObj (jobj [("0001_varint", .vArr (jarr [.vUInt 1, .vUInt 2]))])]))])
  ∧ endsInS "0001_bytes" = true
  ∧ isArr (JValue.vStr "41") = false
  ∧ endsInS "0001_varint" = false
  ∧ isArr (JValue.vArr (jarr [.vUInt 1, .vUInt 2])) = true := by
  refine ⟨rfl, by decide, rfl, by decide, rfl⟩

/-- C7 amended: after the fix-up pass, every binding whose value is a
sequence has a key ending in s, at the top level and inside every
accumulator reachable through directly nested accumulator values; the
converse does not hold (type names such as bytes already end in s on
non-sequence values), and accumulators stored inside sequences are not
visited by the pass. -/
theorem c7_amended (m : JSONResult) : arrKeysOkO (JSONResult.FixTagTypeNames m) = true := by
  induction m using JSONResult.FixTagTypeNames.induct with
  | case1 => rfl
  | case2 k mm rest ih1 ih2 =>
    simp [JSONResult.FixTagTypeNames, arrKeysOkO, arrKeysOkV, ih1, ih2]
  | case3 k xs rest ih =>
    simp [JSONResult.FixTagTypeNames, arrKeysOkO, endsInS_append_s, ih]
  | case4 k v rest hne1 hne2 ih =>
    cases v <;> simp_all [JSONResult.FixTagTypeNames, arrKeysOkO, arrKeysOkV]

/-- C10: at the JCE entry point, when the top-level element loop ends on a
StructEnd with unconsumed bytes remaining, the whole decode fails with the
invalid-data error instead of returning the accumulated result. On input
0b 0c the first element is a top-level StructEnd, the loop stops with the
byte 0c unconsumed, and Do returns the error rather than a document. -/
theorem c10_trailing_structend :
    Jce.Do [11, 12] = .error .invalidData
  ∧ Jce.jceDecode [11, 12] JObj.nil = .ok ([12], JObj.nil) := by
  refine ⟨rfl, rfl⟩

/-- C8: for every accumulator state, key and value, Append binds an absent
key to the value, extends an existing sequence, and otherwise rebinds the
key to the two-element sequence of the previous value and the new value;
AppendArrayItem binds an absent key to the one-element sequence and
otherwise behaves exactly as Append; every other binding is unchanged. -/
theorem c8_append_semantics (m : JSONResult) (k : String) (v : JValue) (k2 : String)
    (h : k2 ≠ k) :
    jLookup (JSONResult.Append m k v) k
      = some (match jLookup m k with
          | none => v
          | some (.vArr xs) => .vArr (JArr.snoc xs v)
          | some old => .vArr (.cons old (.cons v .nil)))
  ∧ jLookup (JSONResult.Append m k v) k2 = jLookup m k2
  ∧ jLookup (JSONResult.AppendArrayItem m k v) k
      = some (match jLookup m k with
          | none => .vArr (.cons v .nil)
          | some (.vArr xs) => .vArr (JArr.snoc xs v)
          | some old => .vArr (.cons old (.cons v .nil)))
  ∧ jLookup (JSONResult.AppendArrayItem m k v) k2 = jLookup m k2 := by
  induction m using jKeys.induct with
  | case1 =>
    simp [JSONResult.Append, JSONResult.AppendArrayItem, jLookup, Ne.symm h]
  | case2 k0 v0 rest ih =>
    by_cases hk : k0 = k
    · subst hk
      cases v0 <;>
        simp [JSONResult.Append, JSONResult.AppendArrayItem, jLookup, Ne.symm h]
    · by_cases hk2 : k0 = k2
      · subst hk2
        simp [JSONResult.Append, JSONResult.AppendArrayItem, jLookup, hk, ih]
      · simp [JSONResult.Append, JSONResult.AppendArrayItem, jLookup, hk, hk2, ih]

/-- C8 witness: the Append and AppendArrayItem characterizations applied to
a one-binding state at the bound key, promoting the scalar to a
two-element sequence. -/
theorem c8_append_semantics_witness :
    jLookup (JSONResult.Append (jobj [("0001_varint", .vUInt 1)]) "0001_varint" (.vUInt 2))
      "0001_varint" = some (.vArr (jarr [.vUInt 1, .vUInt 2])) :=
  (c8_append_semantics (jobj [("0001_varint", .vUInt 1)]) "0001_varint" (.vUInt 2)
    "0002_varint" (by decide)).1

/-- C9: every PB input whose first tag header encodes a field number above
9999, and every input whose first header carries wire type 3 (StartGroup)
or 4 (EndGroup), makes the decode return an error with no output mapping.
The header hypothesis is stated through the tag varint: its field number is
the value shifted right by three and its wire type the low three bits. -/
theorem c9_reject_bigtag_groups (raw : List Nat) (opts : Pb.Options) (v n : Nat)
    (h : Pb.consumeVarint raw = some (v, n))
    (hbad : 9999 < v >>> 3 ∨ v % 8 = 3 ∨ v % 8 = 4) :
    ∃ e, Pb.decode raw opts = .error e := by
  have hraw : raw ≠ [] := by
    intro h0
    subst h0
    simp [Pb.consumeVarint, Pb.consumeVarintAux] at h
  obtain ⟨b, rest, rfl⟩ : ∃ b rest, raw = b :: rest := by
    cases raw with
    | nil => exact absurd rfl hraw
    | cons b r => exact ⟨b, r, rfl⟩
  simp only [Pb.decode, Pb.decodeF, List.isEmpty_cons, Bool.false_eq_true, if_false,
    Pb.readTagType, h]
  by_cases h0 : v >>> 3 = 0
  · simp [h0]
  · by_cases htag : Pb.MaxTagValue < v >>> 3
    · simp [h0, htag]
    · rcases hbad with hb | hb | hb
      · exact absurd (by simpa [Pb.MaxTagValue] using hb) htag
      · simp [h0, htag, hb, Pb.Varint, Pb.Bytes, Pb.Fixed32, Pb.Fixed64]
      · simp [h0, htag, hb, Pb.Varint, Pb.Bytes, Pb.Fixed32, Pb.Fixed64]

/-- C9 witness: the rejection applied to the one-byte input 0b, whose
header has field number 1 and wire type 3. -/
theorem c9_reject_bigtag_groups_witness : ∃ e, Pb.decode [11] none = .error e :=
  c9_reject_bigtag_groups [11] none 11 1 (by decide) (Or.inr (Or.inl (by decide)))
